import Mathlib

/-!
Verification of the metadata-taxonomy module of DataStudio
(`src/datastudio/core/metadata.py`) against its specification.

The module is shallowly embedded: Python `OrderedDict`/`dict` attribute
stores become association lists (`List (String × Value)`) preserving
insertion order, fallible operations return `Except PyError _`, and the
ambient process facts read at construction/update time (login user,
wall-clock strings, uuid) are passed in explicitly as an `Env` snapshot.
-/

namespace DataStudio

/-- Python values that appear in the metadata stores: strings, ints,
booleans, and the Process record's list of log lines. -/
inductive Value where
  | vStr : String → Value
  | vInt : Int → Value
  | vBool : Bool → Value
  | vList : List String → Value
deriving DecidableEq, Repr

/-- Python exceptions raised by the module. -/
inductive PyError where
  | keyError : String → PyError
  | valueError : String → PyError
  | typeError : PyError
  | attributeError : String → PyError
  | stopIteration : PyError
deriving DecidableEq, Repr

/-- Dictionary lookup (`d[k]` / `d.get(k)`): the value at the first
matching key, if any. -/
def alookup {α : Type} : List (String × α) → String → Option α
  | [], _ => none
  | p :: rest, k => if p.1 = k then some p.2 else alookup rest k

/-- Dictionary assignment `d[k] = v`: replaces the value in place at an
existing key (keeping its position, as `OrderedDict` does), otherwise
appends the new pair at the end. -/
def aset {α : Type} : List (String × α) → String → α → List (String × α)
  | [], k, v => [(k, v)]
  | p :: rest, k, v => if p.1 = k then (k, v) :: rest else p :: aset rest k v

/-- Dictionary deletion `del d[k]`: removes the first entry with key `k`
(no effect when the key is absent; the `KeyError` is handled at the
call site in `remove`). -/
def adel {α : Type} : List (String × α) → String → List (String × α)
  | [], _ => []
  | p :: rest, k => if p.1 = k then rest else p :: adel rest k

/-- Python membership test `k in d`. -/
def hasKey {α : Type} (m : List (String × α)) (k : String) : Bool :=
  (alookup m k).isSome

/-- An attribute store (`AbstractMetadata._metadata`, an `OrderedDict`). -/
abbrev Store := List (String × Value)

/-- Result of `AbstractMetadata.get`: either one attribute's value or a
copy of the whole mapping (when the key argument is falsy). -/
inductive GetResult where
  | value : Value → GetResult
  | mapping : Store → GetResult
deriving DecidableEq, Repr

namespace AbstractMetadata

/-- Embeds `AbstractMetadata.get(key=None)`: when `key` is truthy (a non-`None`,
non-empty string) return the value if present else raise `KeyError`;
when `key` is falsy (`None` or `""`) return a copy of the mapping. -/
def get (m : Store) (key : Option String) : Except PyError GetResult :=
  match key with
  | some k =>
      if k ≠ "" then
        match alookup m k with
        | some v => .ok (.value v)
        | none => .error (.keyError k)
      else .ok (.mapping m)
  | none => .ok (.mapping m)

/-- Embeds `AbstractMetadata.add(key, value)`: insert if the key is absent,
else raise `ValueError` (the store is left unchanged). -/
def add (m : Store) (k : String) (v : Value) : Except PyError Store :=
  match alookup m k with
  | none => .ok (aset m k v)
  | some _ => .error (.valueError k)

/-- Embeds `AbstractMetadata.change(key, value)`: raise `KeyError` if the key is
absent, else overwrite. -/
def change (m : Store) (k : String) (v : Value) : Except PyError Store :=
  match alookup m k with
  | none => .error (.keyError k)
  | some _ => .ok (aset m k v)

/-- Embeds `AbstractMetadata.remove(key)`: `del` the entry; a `KeyError` on a
missing key is caught and merely printed, so the operation is total. -/
def remove (m : Store) (k : String) : Store :=
  adel m k

/-- Python `d[k] += 1` on a store entry: reads the current value (raising
`KeyError` when absent), then adds 1 (`True`/`False` count as 1/0;
adding 1 to a string or list raises `TypeError`). -/
def incrInt (m : Store) (k : String) : Except PyError Store :=
  match alookup m k with
  | some (.vInt n) => .ok (aset m k (.vInt (n + 1)))
  | some (.vBool b) => .ok (aset m k (.vInt ((if b then 1 else 0) + 1)))
  | some _ => .error .typeError
  | none => .error (.keyError k)

/-- Embeds `AbstractMetadata.update(event=None)`: `self._metadata['updates'] += 1`. -/
def update (m : Store) : Except PyError Store :=
  incrInt m "updates"

end AbstractMetadata

section AListLemmas

variable {α : Type}

@[simp] theorem alookup_nil (k : String) : alookup ([] : List (String × α)) k = none := rfl

theorem alookup_aset_self (m : List (String × α)) (k : String) (v : α) :
    alookup (aset m k v) k = some v := by
  induction m with
  | nil => simp [aset, alookup]
  | cons p rest ih =>
      by_cases h : p.1 = k
      · simp [aset, alookup, h]
      · simp [aset, alookup, h, ih]

theorem alookup_aset_ne (m : List (String × α)) (k k' : String) (v : α) (h : k' ≠ k) :
    alookup (aset m k v) k' = alookup m k' := by
  have hkk : ¬ k = k' := fun e => h e.symm
  induction m with
  | nil => simp [aset, alookup, hkk]
  | cons p rest ih =>
      by_cases hp : p.1 = k
      · subst hp
        simp [aset, alookup, hkk]
      · simp [aset, alookup, hp, ih]

theorem adel_of_alookup_none (m : List (String × α)) (k : String)
    (h : alookup m k = none) : adel m k = m := by
  induction m with
  | nil => simp [adel]
  | cons p rest ih =>
      by_cases hp : p.1 = k
      · simp [alookup, hp] at h
      · simp [alookup, hp] at h
        simp [adel, hp, ih h]

theorem keys_aset (m : List (String × α)) (k : String) (v : α) :
    (aset m k v).map Prod.fst =
      if (alookup m k).isSome then m.map Prod.fst else m.map Prod.fst ++ [k] := by
  induction m with
  | nil => simp [aset, alookup]
  | cons p rest ih =>
      by_cases hp : p.1 = k
      · simp [aset, alookup, hp]
      · by_cases hr : (alookup rest k).isSome
        · simp [aset, alookup, hp, hr] at ih ⊢
          exact ih
        · simp [aset, alookup, hp, hr] at ih ⊢
          exact ih

theorem alookup_isSome_iff_mem_keys (m : List (String × α)) (k : String) :
    (alookup m k).isSome ↔ k ∈ m.map Prod.fst := by
  induction m with
  | nil => simp [alookup]
  | cons p rest ih =>
      by_cases hp : p.1 = k
      · simp [alookup, hp]
      · simp [alookup, hp, ih, Ne.symm hp]

theorem nodup_keys_aset (m : List (String × α)) (k : String) (v : α)
    (h : (m.map Prod.fst).Nodup) : ((aset m k v).map Prod.fst).Nodup := by
  rw [keys_aset]
  by_cases hk : (alookup m k).isSome
  · simpa [hk] using h
  · have hmem : k ∉ m.map Prod.fst := fun hm =>
      hk ((alookup_isSome_iff_mem_keys m k).mpr hm)
    simp [hk, List.nodup_append, h, hmem]

end AListLemmas

/-- Python `str.lower()` (ASCII case folding), written structurally so
that it evaluates by kernel reduction. -/
def lowerStr (s : String) : String :=
  ⟨s.data.map Char.toLower⟩

/-- Snapshot of the ambient process facts read by the constructors and
update methods: `os.getlogin()`, the `Y-m-d_H-M-S` slug built from
`datetime.now()`, and `time.strftime("%c")`. -/
structure Env where
  user : String
  dateSlug : String
  dateFormatted : String
deriving DecidableEq, Repr

/-- The entity a record describes, reduced to the two things the module
reads from it: `entity.__class__.__name__`, and (for collections) the
member mapping returned by `entity.get()`, where each member is in turn
reduced to its class name. -/
structure Entity where
  classname : String
  members : List (String × String)
deriving DecidableEq, Repr

namespace MetadataAdmin

/-- Embeds `MetadataAdmin.__init__`: populates the store, in order, with the
generated id, name, creator/created, modifier/modified, the zeroed
`updates` counter, the entity class name, and the derived `objectname`
(which doubles the underscore between the date slug and the class name,
as the source's `'_' + '_'` does). -/
def init (env : Env) (uuid : String) (entity : Entity) (name : String) : Store :=
  [("id", .vStr uuid),
   ("name", .vStr name),
   ("creator", .vStr env.user),
   ("created", .vStr env.dateFormatted),
   ("modifier", .vStr env.user),
   ("modified", .vStr env.dateFormatted),
   ("updates", .vInt 0),
   ("classname", .vStr entity.classname),
   ("objectname", .vStr (lowerStr env.user ++ "_" ++ env.dateSlug ++ "_" ++ "_"
      ++ lowerStr entity.classname ++ "_" ++ lowerStr name))]

/-- Embeds `MetadataAdmin.update`: calls the base `update` (one `updates`
increment), rewrites `modifier` and `modified` from the current
environment, then increments `updates` once more. -/
def update (env : Env) (m : Store) : Except PyError Store :=
  match AbstractMetadata.update m with
  | .error e => .error e
  | .ok m1 =>
      let m2 := aset m1 "modifier" (.vStr env.user)
      let m3 := aset m2 "modified" (.vStr env.dateFormatted)
      AbstractMetadata.incrInt m3 "updates"

end MetadataAdmin

namespace MetadataDesc

/-- Embeds `MetadataDesc.__init__`: empty user-fillable fields, the entity's
class name, and the fixed version string. No `updates` key is created. -/
def init (entity : Entity) (_nm : String) : Store :=
  [("type", .vStr ""),
   ("category", .vStr ""),
   ("title", .vStr ""),
   ("description_short", .vStr ""),
   ("description", .vStr ""),
   ("class", .vStr entity.classname),
   ("version", .vStr "0.1.0")]

end MetadataDesc

namespace MetadataDescDataCollection

/-- Embeds `MetadataDescDataCollection._reset`: zeroes the three member counters. -/
def reset (m : Store) : Store :=
  aset (aset (aset m "n_members" (.vInt 0))
    "n_members_datacollection" (.vInt 0)) "n_members_dataset" (.vInt 0)

/-- Embeds `MetadataDescDataCollection.__init__`: descriptive fields plus the
zeroed counters. -/
def init (entity : Entity) (nm : String) : Store :=
  reset (MetadataDesc.init entity nm)

/-- The `for k, v in self._entity.get().items()` loop of
`MetadataDescDataCollection.update`: per member, `n_members += 1`, then
one of the two kind counters depending on whether the member's class is
`DataCollection`. -/
def updateLoop : List (String × String) → Store → Except PyError Store
  | [], m => .ok m
  | (_, cls) :: rest, m =>
      match AbstractMetadata.incrInt m "n_members" with
      | .error e => .error e
      | .ok m1 =>
          match (if cls = "DataCollection"
            then AbstractMetadata.incrInt m1 "n_members_datacollection"
            else AbstractMetadata.incrInt m1 "n_members_dataset") with
          | .error e => .error e
          | .ok m2 => updateLoop rest m2

/-- Embeds `MetadataDescDataCollection.update`: resets the counters, then walks
the entity's current member mapping. -/
def update (entity : Entity) (m : Store) : Except PyError Store :=
  updateLoop entity.members (reset m)

end MetadataDescDataCollection

/-- Python substring test `pat in s` on the underlying character lists. -/
def charsContain (pat : List Char) : List Char → Bool
  | [] => decide (pat = [])
  | c :: rest => pat.isPrefixOf (c :: rest) || charsContain pat rest

/-- Python `pat in s` for strings. -/
def strContains (s pat : String) : Bool :=
  charsContain pat.toList s.toList

namespace MetadataAdminURL

/-- Embeds `MetadataAdminURL.__init__`: runs the `MetadataAdmin` constructor,
then computes `dict(filter(lambda item: 'url' in item[0],
self._metadata.items()))` — a filter over the record's own store, not
over the keyword arguments, which the constructor never touches — and
merges that dictionary back into the store. -/
def init (env : Env) (uuid : String) (entity : Entity) (name : String)
    (_kwargs : List (String × Value)) : Store :=
  let m := MetadataAdmin.init env uuid entity name
  let url := m.filter (fun p => strContains p.1 "url")
  url.foldl (fun acc p => aset acc p.1 p.2) m

end MetadataAdminURL

/-- A Python object attribute that may never have been assigned:
reading it when it is `none` raises `AttributeError`. -/
abbrev Attr (α : Type) := Option α

/-- A `MetadataProcess` object: the entity reference and the attribute
store set by `AbstractMetadata.__init__`, and the `_name` attribute,
which that constructor never assigns (it discards its `name` parameter),
so it is `none` for every record the module builds. -/
structure ProcessRecord where
  entity : Entity
  nameAttr : Attr String
  store : Store
deriving DecidableEq, Repr

namespace MetadataProcess

/-- The "instantiated" log line built by `MetadataProcess.__init__`
(reproducing the double space from `"instantiated " + ' at '`). -/
def instMsg (env : Env) (entity : Entity) (name : String) : String :=
  entity.classname ++ " object named '" ++ name ++ "' was instantiated "
    ++ " at " ++ env.dateFormatted ++ " by " ++ env.user ++ "."

/-- Embeds `MetadataProcess.__init__`: stores the entity, leaves `_name` unset
(the base constructor ignores its `name` parameter), and seeds `log`
with the single "instantiated" line. -/
def init (env : Env) (entity : Entity) (name : String) : ProcessRecord :=
  { entity := entity
    nameAttr := none
    store := [("log", .vList [instMsg env entity name])] }

/-- Embeds `MetadataProcess.update(event)`: builds the message string
`'Class : ' + classname + 'Name : ' + self._name + 'Date : ' + date +
'Event : ' + event` before testing `if event:`. Reading `self._name`
raises `AttributeError` when the attribute was never assigned, and
`... + event` raises `TypeError` when `event` is `None`; only then is
the falsy test reached, appending the line for a truthy event. -/
def update (env : Env) (r : ProcessRecord) (event : Option String) :
    Except PyError ProcessRecord :=
  let classname := r.entity.classname
  match r.nameAttr with
  | none => .error (.attributeError "_name")
  | some nm =>
    match event with
    | none => .error .typeError
    | some ev =>
      let msg := "Class : " ++ classname ++ "Name : " ++ nm
        ++ "Date : " ++ env.dateFormatted ++ "Event : " ++ ev
      if ev ≠ "" then
        match alookup r.store "log" with
        | some (.vList l) =>
            .ok { r with store := aset r.store "log" (.vList (l ++ [msg])) }
        | _ => .error .typeError
      else .ok r

end MetadataProcess

/-- A record held by the taxonomy container, reduced to what the
container reads: its `metadata_type` kind string, plus an identity tag
so distinct records of the same kind can be told apart. -/
structure TRecord where
  metadata_type : String
  rid : Nat
deriving DecidableEq, Repr

/-- The taxonomy container (`Metadata._metadata`): a mapping from
lower-cased kind name to record. -/
abbrev Taxonomy := List (String × TRecord)

namespace Metadata

/-- Embeds `Metadata.add`: `self._metadata[metadata.metadata_type.lower()] =
metadata` — plain dict assignment, overwriting any prior record stored
under the same kind. -/
def add (t : Taxonomy) (r : TRecord) : Taxonomy :=
  aset t (lowerStr r.metadata_type) r

/-- Embeds `Metadata.get(metadata_type=None)`: with `None`, the full mapping;
otherwise `next(...)` over the entries whose key contains the query
(both lower-cased), which raises `StopIteration` when nothing matches
(the `raise KeyError` branch below the `next` call is unreachable,
because `next` without a default never returns a falsy record). -/
def get (t : Taxonomy) (q : Option String) : Except PyError (Taxonomy ⊕ TRecord) :=
  match q with
  | none => .ok (.inl t)
  | some s =>
      match t.find? (fun p => strContains (lowerStr p.1) (lowerStr s)) with
      | some p => .ok (.inr p.2)
      | none => .error .stopIteration

end Metadata

deriving instance DecidableEq for Except

/-- C1 — counterexample. The claim quantifies over every absent key, but
for the empty key `""` (absent from the empty store) `add("", v)`
succeeds and `get("")` then returns the full mapping copy rather than
`v`, because `get` tests the key for truthiness before looking it up. -/
theorem add_get_empty_key_counterexample :
    alookup ([] : Store) "" = none ∧
    AbstractMetadata.add [] "" (.vInt 7) = .ok [("", .vInt 7)] ∧
    AbstractMetadata.get [("", .vInt 7)] (some "") ≠ .ok (.value (.vInt 7)) := by
  decide

/-- C1 (amended: the key must be non-empty, i.e. truthy, as the spec's
own sentence states). For every store, absent non-empty key `k` and
value `v`: `add(k, v)` succeeds, `get(k)` then returns `v`, every second
`add(k, w)` fails with `ValueError` (the DuplicateKeyError) leaving the
store unreturned, and the stored value for `k` stays `v`. -/
theorem attr_add_then_get_roundtrip (m : Store) (k : String) (v : Value)
    (habs : alookup m k = none) (hk : k ≠ "") :
    ∃ m', AbstractMetadata.add m k v = .ok m' ∧
      AbstractMetadata.get m' (some k) = .ok (.value v) ∧
      (∀ w, AbstractMetadata.add m' k w = .error (.valueError k)) ∧
      alookup m' k = some v := by
  refine ⟨aset m k v, ?_, ?_, ?_, alookup_aset_self m k v⟩
  · simp [AbstractMetadata.add, habs]
  · simp [AbstractMetadata.get, hk, alookup_aset_self]
  · intro w
    simp [AbstractMetadata.add, alookup_aset_self]

theorem attr_add_then_get_roundtrip_witness :
    (alookup ([] : Store) "creator" = none ∧ "creator" ≠ "") ∧
    (∃ m', AbstractMetadata.add [] "creator" (.vStr "jj") = .ok m' ∧
      AbstractMetadata.get m' (some "creator") = .ok (.value (.vStr "jj")) ∧
      (∀ w, AbstractMetadata.add m' "creator" w = .error (.valueError "creator")) ∧
      alookup m' "creator" = some (.vStr "jj")) :=
  ⟨⟨by decide, by decide⟩,
   attr_add_then_get_roundtrip [] "creator" (.vStr "jj") (by decide) (by decide)⟩

/-- C2 — counterexample. The claim quantifies over every absent key, but
`get` on the absent empty key `""` does not raise `KeyError`: the
truthiness test sends it down the no-key branch, which returns the full
mapping copy. -/
theorem get_missing_empty_key_counterexample :
    alookup ([] : Store) "" = none ∧
    AbstractMetadata.get ([] : Store) (some "") = .ok (.mapping []) ∧
    AbstractMetadata.get ([] : Store) (some "") ≠ .error (.keyError "") := by
  decide

/-- C2 (amended: the `get` part holds for non-empty keys; for the empty
key `get` returns the mapping copy instead). For every store and absent
key `k`: `get(k)` raises `KeyError` (the MissingKeyError) when `k` is
non-empty, `change(k, v)` raises `KeyError` for every `v`, and
`remove(k)` is total (the `KeyError` from `del` is caught and only
printed) and leaves the store unchanged; `get`/`change` leave the store
unchanged as well, since their error paths return before assignment. -/
theorem attr_missing_key_ops (m : Store) (k : String) (v : Value)
    (habs : alookup m k = none) :
    (k ≠ "" → AbstractMetadata.get m (some k) = .error (.keyError k)) ∧
    AbstractMetadata.change m k v = .error (.keyError k) ∧
    AbstractMetadata.remove m k = m := by
  refine ⟨fun hk => ?_, ?_, ?_⟩
  · simp [AbstractMetadata.get, hk, habs]
  · simp [AbstractMetadata.change, habs]
  · exact adel_of_alookup_none m k habs

theorem attr_missing_key_ops_witness :
    alookup [("name", Value.vStr "sales")] "modifier" = none ∧
    ((("modifier" : String) ≠ "" →
      AbstractMetadata.get [("name", Value.vStr "sales")] (some "modifier")
        = .error (.keyError "modifier")) ∧
     AbstractMetadata.change [("name", Value.vStr "sales")] "modifier" (.vInt 3)
        = .error (.keyError "modifier") ∧
     AbstractMetadata.remove [("name", Value.vStr "sales")] "modifier"
        = [("name", Value.vStr "sales")]) :=
  ⟨by decide,
   attr_missing_key_ops [("name", Value.vStr "sales")] "modifier" (.vInt 3) (by decide)⟩

/-- C10: a falsy non-`None` key (the empty string) skips the key lookup
entirely: `get("")` returns the full copy of the attribute mapping,
exactly as `get()` with no key does, and raises nothing. -/
theorem get_falsy_key_returns_mapping (m : Store) :
    AbstractMetadata.get m (some "") = .ok (.mapping m) ∧
    AbstractMetadata.get m (some "") = AbstractMetadata.get m none := by
  constructor <;> simp [AbstractMetadata.get]

/-- C4 — counterexample. The claim asserts the base `update` succeeds on
records of every kind, but a Descriptive record's store has no
`updates` key (its constructor never creates one), so
`self._metadata['updates'] += 1` raises `KeyError`. -/
theorem base_update_desc_counterexample :
    alookup (MetadataDesc.init ⟨"DataSet", []⟩ "sf_listings") "updates" = none ∧
    AbstractMetadata.update (MetadataDesc.init ⟨"DataSet", []⟩ "sf_listings")
      = .error (.keyError "updates") := by
  decide

/-- C4 (amended: restricted to records whose store holds the integer
`updates` counter — Administrative records create it at construction
with value 0; Descriptive, Technical and Process records never create
it and the base `update` raises `KeyError` on them). One call to the
base `update(event=None)` succeeds and increments the counter by one. -/
theorem base_update_increments_updates (m : Store) (n : Int)
    (h : alookup m "updates" = some (.vInt n)) :
    AbstractMetadata.update m = .ok (aset m "updates" (.vInt (n + 1))) ∧
    alookup (aset m "updates" (.vInt (n + 1))) "updates" = some (.vInt (n + 1)) := by
  constructor
  · simp [AbstractMetadata.update, AbstractMetadata.incrInt, h]
  · exact alookup_aset_self m "updates" (.vInt (n + 1))

theorem base_update_increments_updates_witness :
    alookup (MetadataAdmin.init ⟨"jj", "2020-2-14_8-47-19", "Fri Feb 14 08:47:19 2020"⟩
        "id-1" ⟨"DataSet", []⟩ "sales") "updates" = some (.vInt 0) ∧
    (AbstractMetadata.update (MetadataAdmin.init ⟨"jj", "2020-2-14_8-47-19", "Fri Feb 14 08:47:19 2020"⟩
        "id-1" ⟨"DataSet", []⟩ "sales")
      = .ok (aset (MetadataAdmin.init ⟨"jj", "2020-2-14_8-47-19", "Fri Feb 14 08:47:19 2020"⟩
        "id-1" ⟨"DataSet", []⟩ "sales") "updates" (.vInt (0 + 1))) ∧
     alookup (aset (MetadataAdmin.init ⟨"jj", "2020-2-14_8-47-19", "Fri Feb 14 08:47:19 2020"⟩
        "id-1" ⟨"DataSet", []⟩ "sales") "updates" (.vInt (0 + 1))) "updates"
      = some (.vInt (0 + 1))) :=
  ⟨by decide,
   base_update_increments_updates
     (MetadataAdmin.init ⟨"jj", "2020-2-14_8-47-19", "Fri Feb 14 08:47:19 2020"⟩
       "id-1" ⟨"DataSet", []⟩ "sales") 0 (by decide)⟩

/-- C5: for every Administrative record state (any store whose `updates`
attribute is an integer, which construction establishes and every
update preserves), `MetadataAdmin.update` succeeds and rewrites only
`modifier`, `modified` and `updates` (the counter rises by 2: one
increment from the base-class call and one from the subclass); every
other attribute — in particular `id`, `created`, `objectname`, `name`
and `classname` — keeps its value. -/
theorem admin_update_frame (env : Env) (m : Store) (n : Int)
    (h : alookup m "updates" = some (.vInt n)) :
    ∃ m', MetadataAdmin.update env m = .ok m' ∧
      (∀ k, k ≠ "modifier" → k ≠ "modified" → k ≠ "updates" →
        alookup m' k = alookup m k) ∧
      alookup m' "modifier" = some (.vStr env.user) ∧
      alookup m' "modified" = some (.vStr env.dateFormatted) ∧
      alookup m' "updates" = some (.vInt (n + 2)) := by
  have hupd : AbstractMetadata.update m = .ok (aset m "updates" (.vInt (n + 1))) := by
    simp [AbstractMetadata.update, AbstractMetadata.incrInt, h]
  have hl3 : alookup (aset (aset (aset m "updates" (.vInt (n + 1))) "modifier"
      (.vStr env.user)) "modified" (.vStr env.dateFormatted)) "updates"
      = some (.vInt (n + 1)) := by
    rw [alookup_aset_ne _ _ _ _ (by decide), alookup_aset_ne _ _ _ _ (by decide),
        alookup_aset_self]
  refine ⟨aset (aset (aset (aset m "updates" (.vInt (n + 1))) "modifier"
      (.vStr env.user)) "modified" (.vStr env.dateFormatted)) "updates"
      (.vInt (n + 1 + 1)), ?_, ?_, ?_, ?_, ?_⟩
  · simp [MetadataAdmin.update, hupd, AbstractMetadata.incrInt, hl3]
  · intro k h1 h2 h3
    rw [alookup_aset_ne _ _ _ _ h3, alookup_aset_ne _ _ _ _ h2,
        alookup_aset_ne _ _ _ _ h1, alookup_aset_ne _ _ _ _ h3]
  · rw [alookup_aset_ne _ _ _ _ (by decide), alookup_aset_ne _ _ _ _ (by decide),
        alookup_aset_self]
  · rw [alookup_aset_ne _ _ _ _ (by decide), alookup_aset_self]
  · rw [alookup_aset_self]
    norm_num
    omega

theorem admin_update_frame_witness :
    alookup (MetadataAdmin.init ⟨"jj", "2020-2-14_8-47-19", "Fri Feb 14 08:47:19 2020"⟩
        "id-1" ⟨"DataSet", []⟩ "sales") "updates" = some (.vInt 0) ∧
    (∃ m', MetadataAdmin.update ⟨"kk", "2020-2-16_7-4-22", "Sun Feb 16 07:04:22 2020"⟩
        (MetadataAdmin.init ⟨"jj", "2020-2-14_8-47-19", "Fri Feb 14 08:47:19 2020"⟩
          "id-1" ⟨"DataSet", []⟩ "sales") = .ok m' ∧
      (∀ k, k ≠ "modifier" → k ≠ "modified" → k ≠ "updates" →
        alookup m' k = alookup (MetadataAdmin.init
          ⟨"jj", "2020-2-14_8-47-19", "Fri Feb 14 08:47:19 2020"⟩
          "id-1" ⟨"DataSet", []⟩ "sales") k) ∧
      alookup m' "modifier" = some (.vStr "kk") ∧
      alookup m' "modified" = some (.vStr "Sun Feb 16 07:04:22 2020") ∧
      alookup m' "updates" = some (.vInt (0 + 2))) :=
  ⟨by decide,
   admin_update_frame ⟨"kk", "2020-2-16_7-4-22", "Sun Feb 16 07:04:22 2020"⟩
     (MetadataAdmin.init ⟨"jj", "2020-2-14_8-47-19", "Fri Feb 14 08:47:19 2020"⟩
       "id-1" ⟨"DataSet", []⟩ "sales") 0 (by decide)⟩

/-- C6 — the code contradicts the claim (and the evident intent of
`MetadataProcess.update`). Construction does seed the log with exactly
the one "instantiated" line, but `AbstractMetadata.__init__` discards
its `name` parameter, so the `_name` attribute read while building the
log message is never assigned: every `update` call — truthy event,
empty-string event, or the default `None` — raises `AttributeError`
before the `if event:` test, instead of appending a line or being a
no-op. -/
theorem process_update_raises_attribute_error (env env0 : Env) (entity : Entity)
    (name : String) (event : Option String) :
    (MetadataProcess.init env0 entity name).store
      = [("log", .vList [MetadataProcess.instMsg env0 entity name])] ∧
    (MetadataProcess.init env0 entity name).nameAttr = none ∧
    MetadataProcess.update env (MetadataProcess.init env0 entity name) event
      = .error (.attributeError "_name") :=
  ⟨rfl, rfl, rfl⟩

theorem length_filter_datacollection_add (l : List (String × String)) :
    (l.filter (fun q => q.2 == "DataCollection")).length
      + (l.filter (fun q => !(q.2 == "DataCollection"))).length = l.length := by
  induction l with
  | nil => rfl
  | cons x rest ih =>
      by_cases hx : x.2 = "DataCollection" <;> simp [List.filter_cons, hx] <;> omega

theorem updateLoop_counts (members : List (String × String)) (m : Store) (a b c : Int)
    (ha : alookup m "n_members" = some (.vInt a))
    (hb : alookup m "n_members_datacollection" = some (.vInt b))
    (hc : alookup m "n_members_dataset" = some (.vInt c)) :
    ∃ m', MetadataDescDataCollection.updateLoop members m = .ok m' ∧
      alookup m' "n_members" = some (.vInt (a + members.length)) ∧
      alookup m' "n_members_datacollection"
        = some (.vInt (b + (members.filter (fun q => q.2 == "DataCollection")).length)) ∧
      alookup m' "n_members_dataset"
        = some (.vInt (c + (members.filter (fun q => !(q.2 == "DataCollection"))).length)) := by
  induction members generalizing m a b c with
  | nil =>
      exact ⟨m, rfl, by simpa using ha, by simpa using hb, by simpa using hc⟩
  | cons pm rest ih =>
      obtain ⟨nm, cls⟩ := pm
      have h1 : AbstractMetadata.incrInt m "n_members"
          = .ok (aset m "n_members" (.vInt (a + 1))) := by
        simp [AbstractMetadata.incrInt, ha]
      by_cases hcls : cls = "DataCollection"
      · have hb1 : alookup (aset m "n_members" (.vInt (a + 1))) "n_members_datacollection"
            = some (.vInt b) := by
          rw [alookup_aset_ne _ _ _ _ (by decide)]; exact hb
        have h2 : AbstractMetadata.incrInt (aset m "n_members" (.vInt (a + 1)))
            "n_members_datacollection"
            = .ok (aset (aset m "n_members" (.vInt (a + 1))) "n_members_datacollection"
                (.vInt (b + 1))) := by
          simp [AbstractMetadata.incrInt, hb1]
        have ha2 : alookup (aset (aset m "n_members" (.vInt (a + 1)))
            "n_members_datacollection" (.vInt (b + 1))) "n_members"
            = some (.vInt (a + 1)) := by
          rw [alookup_aset_ne _ _ _ _ (by decide), alookup_aset_self]
        have hb2 : alookup (aset (aset m "n_members" (.vInt (a + 1)))
            "n_members_datacollection" (.vInt (b + 1))) "n_members_datacollection"
            = some (.vInt (b + 1)) := alookup_aset_self _ _ _
        have hc2 : alookup (aset (aset m "n_members" (.vInt (a + 1)))
            "n_members_datacollection" (.vInt (b + 1))) "n_members_dataset"
            = some (.vInt c) := by
          rw [alookup_aset_ne _ _ _ _ (by decide), alookup_aset_ne _ _ _ _ (by decide)]
          exact hc
        obtain ⟨m', hm', hA, hB, hC⟩ := ih _ (a + 1) (b + 1) c ha2 hb2 hc2
        refine ⟨m', ?_, ?_, ?_, ?_⟩
        · simp [MetadataDescDataCollection.updateLoop, h1, hcls, h2, hm']
        · rw [hA]
          simp only [Option.some.injEq, Value.vInt.injEq, List.length_cons]
          push_cast
          ring
        · rw [hB]
          simp only [List.filter_cons, hcls, Option.some.injEq, Value.vInt.injEq]
          simp only [beq_self_eq_true, if_true, List.length_cons]
          push_cast
          ring
        · rw [hC]
          simp only [List.filter_cons, hcls, Option.some.injEq, Value.vInt.injEq]
          simp
      · have hc1 : alookup (aset m "n_members" (.vInt (a + 1))) "n_members_dataset"
            = some (.vInt c) := by
          rw [alookup_aset_ne _ _ _ _ (by decide)]; exact hc
        have h2 : AbstractMetadata.incrInt (aset m "n_members" (.vInt (a + 1)))
            "n_members_dataset"
            = .ok (aset (aset m "n_members" (.vInt (a + 1))) "n_members_dataset"
                (.vInt (c + 1))) := by
          simp [AbstractMetadata.incrInt, hc1]
        have ha2 : alookup (aset (aset m "n_members" (.vInt (a + 1)))
            "n_members_dataset" (.vInt (c + 1))) "n_members"
            = some (.vInt (a + 1)) := by
          rw [alookup_aset_ne _ _ _ _ (by decide), alookup_aset_self]
        have hb2 : alookup (aset (aset m "n_members" (.vInt (a + 1)))
            "n_members_dataset" (.vInt (c + 1))) "n_members_datacollection"
            = some (.vInt b) := by
          rw [alookup_aset_ne _ _ _ _ (by decide), alookup_aset_ne _ _ _ _ (by decide)]
          exact hb
        have hc2 : alookup (aset (aset m "n_members" (.vInt (a + 1)))
            "n_members_dataset" (.vInt (c + 1))) "n_members_dataset"
            = some (.vInt (c + 1)) := alookup_aset_self _ _ _
        obtain ⟨m', hm', hA, hB, hC⟩ := ih _ (a + 1) b (c + 1) ha2 hb2 hc2
        refine ⟨m', ?_, ?_, ?_, ?_⟩
        · simp [MetadataDescDataCollection.updateLoop, h1, hcls, h2, hm']
        · rw [hA]
          simp only [Option.some.injEq, Value.vInt.injEq, List.length_cons]
          push_cast
          ring
        · rw [hB]
          simp only [List.filter_cons, hcls, Option.some.injEq, Value.vInt.injEq]
          simp [hcls]
        · rw [hC]
          simp [List.filter_cons, hcls]
          omega

/-- C7: for every collection entity whose member mapping holds `N`
members that are not `DataCollection` instances (leaf datasets) and `M`
members that are, `MetadataDescDataCollection.update` on any prior
store state resets and recounts: afterwards `n_members = N + M`,
`n_members_datacollection = M` and `n_members_dataset = N`, regardless
of the previous counter values (or whether the counters existed). -/
theorem datacollection_update_counts (entity : Entity) (m : Store) :
    ∃ m', MetadataDescDataCollection.update entity m = .ok m' ∧
      alookup m' "n_members"
        = some (.vInt ((entity.members.filter (fun q => !(q.2 == "DataCollection"))).length
            + (entity.members.filter (fun q => q.2 == "DataCollection")).length)) ∧
      alookup m' "n_members_datacollection"
        = some (.vInt (entity.members.filter (fun q => q.2 == "DataCollection")).length) ∧
      alookup m' "n_members_dataset"
        = some (.vInt (entity.members.filter (fun q => !(q.2 == "DataCollection"))).length) := by
  have ha : alookup (MetadataDescDataCollection.reset m) "n_members" = some (.vInt 0) := by
    unfold MetadataDescDataCollection.reset
    rw [alookup_aset_ne _ _ _ _ (by decide), alookup_aset_ne _ _ _ _ (by decide),
        alookup_aset_self]
  have hb : alookup (MetadataDescDataCollection.reset m) "n_members_datacollection"
      = some (.vInt 0) := by
    unfold MetadataDescDataCollection.reset
    rw [alookup_aset_ne _ _ _ _ (by decide), alookup_aset_self]
  have hc : alookup (MetadataDescDataCollection.reset m) "n_members_dataset"
      = some (.vInt 0) := alookup_aset_self _ _ _
  obtain ⟨m', hm', hA, hB, hC⟩ :=
    updateLoop_counts entity.members (MetadataDescDataCollection.reset m) 0 0 0 ha hb hc
  refine ⟨m', hm', ?_, by simpa using hB, by simpa using hC⟩
  rw [hA]
  simp only [Option.some.injEq, Value.vInt.injEq]
  have := length_filter_datacollection_add entity.members
  omega

/-- C8 — the code contradicts the claim (and the spec's evident intent,
cf. `MetadataTechRDBMS`, which filters `kwargs.items()`). The
`MetadataAdminURL` constructor filters `self._metadata.items()` — the
nine freshly populated administrative attributes, none of whose keys
contains "url" — instead of the keyword arguments, so the filter is
always empty and the merge is a no-op: for every keyword bundle,
url-containing keys included, the resulting record equals a plain
`MetadataAdmin` record and carries no `source_url` attribute. -/
theorem adminurl_url_kwargs_dropped (env : Env) (uuid : String) (entity : Entity)
    (name : String) (kwargs : List (String × Value)) (v : Value) :
    MetadataAdminURL.init env uuid entity name kwargs
      = MetadataAdmin.init env uuid entity name ∧
    alookup (MetadataAdminURL.init env uuid entity name
        (("source_url", v) :: kwargs)) "source_url" = none :=
  ⟨rfl, rfl⟩

/-- The four kind names under which the builders' records are stored
(each record's `metadata_type`, lower-cased by `Metadata.add`). -/
def stdKinds : List String := ["administrative", "descriptive", "technical", "process"]

theorem find?_first_admin (t : Taxonomy) (r : TRecord) (s : String)
    (hs1 : strContains (lowerStr "administrative") (lowerStr s) = true)
    (hs2 : strContains (lowerStr "descriptive") (lowerStr s) = false)
    (hs3 : strContains (lowerStr "technical") (lowerStr s) = false)
    (hs4 : strContains (lowerStr "process") (lowerStr s) = false)
    (hkinds : ∀ p ∈ t, p.1 ∈ stdKinds)
    (hadm : alookup t "administrative" = some r) :
    t.find? (fun q => strContains (lowerStr q.1) (lowerStr s))
      = some ("administrative", r) := by
  induction t with
  | nil => simp [alookup] at hadm
  | cons p rest ih =>
      have hk : p.1 ∈ stdKinds := hkinds p (List.mem_cons_self p rest)
      have hkinds' : ∀ q ∈ rest, q.1 ∈ stdKinds :=
        fun q hq => hkinds q (List.mem_cons_of_mem _ hq)
      simp only [stdKinds, List.mem_cons, List.not_mem_nil, or_false] at hk
      rcases hk with h1 | h1 | h1 | h1
      · have h2 : p.2 = r := by
          simpa [alookup, h1] using hadm
        have hp : p = ("administrative", r) := by
          cases p
          simp_all
        rw [hp]
        exact List.find?_cons_of_pos _ (by simpa using hs1)
      · have hadm' : alookup rest "administrative" = some r := by
          simpa [alookup, h1] using hadm
        rw [List.find?_cons_of_neg _ (by simp [h1, hs2])]
        exact ih hkinds' hadm'
      · have hadm' : alookup rest "administrative" = some r := by
          simpa [alookup, h1] using hadm
        rw [List.find?_cons_of_neg _ (by simp [h1, hs3])]
        exact ih hkinds' hadm'
      · have hadm' : alookup rest "administrative" = some r := by
          simpa [alookup, h1] using hadm
        rw [List.find?_cons_of_neg _ (by simp [h1, hs4])]
        exact ih hkinds' hadm'

/-- C3: on any taxonomy whose keys are the builders' standard kind
names, if an Administrative record is stored then both `get("admin")`
and `get("Administrative")` return that same record (the lookup
lower-cases both sides and matches by substring); and on any taxonomy,
`get(s)` for a query that is a substring of no stored kind name fails —
the `next(...)` expression raises `StopIteration` (the module's
no-match error; its explicit `raise KeyError` branch is unreachable). -/
theorem taxonomy_get_spec :
    (∀ (t : Taxonomy) (r : TRecord),
      (∀ p ∈ t, p.1 ∈ stdKinds) →
      alookup t "administrative" = some r →
      Metadata.get t (some "admin") = .ok (.inr r) ∧
      Metadata.get t (some "Administrative") = .ok (.inr r)) ∧
    (∀ (t : Taxonomy) (s : String),
      (∀ p ∈ t, strContains (lowerStr p.1) (lowerStr s) = false) →
      Metadata.get t (some s) = .error .stopIteration) := by
  refine ⟨fun t r hkinds hadm => ⟨?_, ?_⟩, fun t s hno => ?_⟩
  · have hfind := find?_first_admin t r "admin"
      (by decide) (by decide) (by decide) (by decide) hkinds hadm
    simp [Metadata.get, hfind]
  · have hfind := find?_first_admin t r "Administrative"
      (by decide) (by decide) (by decide) (by decide) hkinds hadm
    simp [Metadata.get, hfind]
  · have hnone : t.find? (fun q => strContains (lowerStr q.1) (lowerStr s)) = none :=
      List.find?_eq_none.mpr (fun x hx => by simp [hno x hx])
    simp [Metadata.get, hnone]

theorem taxonomy_get_spec_witness :
    ((∀ p ∈ ([("administrative", TRecord.mk "Administrative" 0),
        ("descriptive", TRecord.mk "Descriptive" 1),
        ("technical", TRecord.mk "Technical" 2),
        ("process", TRecord.mk "Process" 3)] : Taxonomy), p.1 ∈ stdKinds) ∧
     alookup ([("administrative", TRecord.mk "Administrative" 0),
        ("descriptive", TRecord.mk "Descriptive" 1),
        ("technical", TRecord.mk "Technical" 2),
        ("process", TRecord.mk "Process" 3)] : Taxonomy) "administrative"
       = some (TRecord.mk "Administrative" 0) ∧
     (∀ p ∈ ([("administrative", TRecord.mk "Administrative" 0),
        ("descriptive", TRecord.mk "Descriptive" 1),
        ("technical", TRecord.mk "Technical" 2),
        ("process", TRecord.mk "Process" 3)] : Taxonomy),
        strContains (lowerStr p.1) (lowerStr "nonexistent") = false)) ∧
    (Metadata.get [("administrative", TRecord.mk "Administrative" 0),
        ("descriptive", TRecord.mk "Descriptive" 1),
        ("technical", TRecord.mk "Technical" 2),
        ("process", TRecord.mk "Process" 3)] (some "admin")
       = .ok (.inr (TRecord.mk "Administrative" 0)) ∧
     Metadata.get [("administrative", TRecord.mk "Administrative" 0),
        ("descriptive", TRecord.mk "Descriptive" 1),
        ("technical", TRecord.mk "Technical" 2),
        ("process", TRecord.mk "Process" 3)] (some "Administrative")
       = .ok (.inr (TRecord.mk "Administrative" 0)) ∧
     Metadata.get [("administrative", TRecord.mk "Administrative" 0),
        ("descriptive", TRecord.mk "Descriptive" 1),
        ("technical", TRecord.mk "Technical" 2),
        ("process", TRecord.mk "Process" 3)] (some "nonexistent")
       = .error .stopIteration) :=
  ⟨⟨by decide, by decide, by decide⟩,
   ⟨(taxonomy_get_spec.1 _ _ (by decide) (by decide)).1,
    (taxonomy_get_spec.1 _ _ (by decide) (by decide)).2,
    taxonomy_get_spec.2 _ _ (by decide)⟩⟩

/-- C9: `Metadata.add` is a total function (no raise path exists), so
adding two records of the same kind raises no error; the second add
overwrites the first under their shared lower-cased kind key (last
write wins), and — as witnessed by the key multiset staying duplicate
free — the taxonomy invariant of at most one record per kind is
preserved by every add. -/
theorem taxonomy_add_last_write_wins (t : Taxonomy) (r1 r2 : TRecord)
    (h : r1.metadata_type = r2.metadata_type)
    (hnd : (t.map Prod.fst).Nodup) :
    alookup (Metadata.add (Metadata.add t r1) r2) (lowerStr r1.metadata_type)
      = some r2 ∧
    ((Metadata.add (Metadata.add t r1) r2).map Prod.fst).Nodup ∧
    ∀ (t' : Taxonomy) (r0 : TRecord), (t'.map Prod.fst).Nodup →
      ((Metadata.add t' r0).map Prod.fst).Nodup := by
  refine ⟨?_, ?_, fun t' r0 hnd' => nodup_keys_aset _ _ _ hnd'⟩
  · unfold Metadata.add
    rw [h]
    exact alookup_aset_self _ _ _
  · exact nodup_keys_aset _ _ _ (nodup_keys_aset _ _ _ hnd)

theorem taxonomy_add_last_write_wins_witness :
    ((TRecord.mk "Descriptive" 0).metadata_type
        = (TRecord.mk "Descriptive" 1).metadata_type ∧
     (([("administrative", TRecord.mk "Administrative" 7)] : Taxonomy).map
        Prod.fst).Nodup) ∧
    (alookup (Metadata.add (Metadata.add
        [("administrative", TRecord.mk "Administrative" 7)]
        (TRecord.mk "Descriptive" 0)) (TRecord.mk "Descriptive" 1))
        (lowerStr (TRecord.mk "Descriptive" 0).metadata_type)
      = some (TRecord.mk "Descriptive" 1) ∧
     ((Metadata.add (Metadata.add
        [("administrative", TRecord.mk "Administrative" 7)]
        (TRecord.mk "Descriptive" 0)) (TRecord.mk "Descriptive" 1)).map
        Prod.fst).Nodup) :=
  ⟨⟨rfl, by decide⟩,
   ⟨(taxonomy_add_last_write_wins [("administrative", TRecord.mk "Administrative" 7)]
      (TRecord.mk "Descriptive" 0) (TRecord.mk "Descriptive" 1) rfl (by decide)).1,
    (taxonomy_add_last_write_wins [("administrative", TRecord.mk "Administrative" 7)]
      (TRecord.mk "Descriptive" 0) (TRecord.mk "Descriptive" 1) rfl (by decide)).2.1⟩⟩

end DataStudio
